import Mathlib

/-!
# Verification of the Abundatron INSPECT batch fetcher

Shallow embedding of `abundatron.py`, a batch client for the INSPECT
web calculators.  Pure string/number processing is translated to Lean
functions over `List Char` and `ℚ`; HTTP responses are explicit inputs;
Python exceptions become `Except` values, distinguishing `SystemExit`
(uncatchable by `except Exception`) from ordinary exceptions.

Modelling notes, fixed throughout the file:
* Python `float` is modelled by `ℚ` (the numeric literals appearing in
  the scraped text are decimal, hence exact rationals; no claim below
  depends on binary rounding).  `float("nan")` is modelled by `none`
  in an `Option ℚ`.
* The regex `\d` is modelled by ASCII digits, `str.strip`/`splitlines`
  by their ASCII behaviour, `str.lower` by `Char.toLower`; the scraped
  pages are ASCII.
* BeautifulSoup extraction is an input: a response is either an HTTP
  error or a body carrying the text of its `<pre>` block (`none` when
  the page has no `<pre>`), and the dropdown page is the list of its
  `<option>` elements after attribute extraction.
-/

/-! ## Character and line utilities (str.splitlines, str.strip, substring) -/

/-- `c` is not a line break (model of the `\n`/`\r` boundaries used by
`str.splitlines`; the text fed to it is built with `get_text("\n")`). -/
def notNL (c : Char) : Bool := !(c = '\n' || c = '\r')

/-- Python whitespace as tested by `str.strip()` (ASCII part). -/
def isPySpace (c : Char) : Bool :=
  c = ' ' || c = '\t' || c = '\n' || c = '\r' || c = '\x0b' || c = '\x0c'

theorem dropWhileLenLe (p : Char → Bool) :
    ∀ l : List Char, (l.dropWhile p).length ≤ l.length := by
  intro l
  induction l with
  | nil => simp [List.dropWhile]
  | cons c cs ih =>
    simp only [List.dropWhile]
    split
    · exact Nat.le_succ_of_le ih
    · simp

/-- Accumulator pass of `str.splitlines()`: `acc` holds the current
line reversed; a final fragment after the last boundary is emitted only
when non-empty (no trailing empty line for a trailing newline). -/
def splitlinesAux (acc : List Char) : List Char → List (List Char)
  | [] => if acc.isEmpty then [] else [acc.reverse]
  | '\r' :: '\n' :: rest => acc.reverse :: splitlinesAux [] rest
  | '\n' :: rest => acc.reverse :: splitlinesAux [] rest
  | '\r' :: rest => acc.reverse :: splitlinesAux [] rest
  | c :: rest => splitlinesAux (c :: acc) rest

/-- Model of `str.splitlines()` restricted to `\n`, `\r`, `\r\n`
boundaries. -/
def splitlinesChars (cs : List Char) : List (List Char) :=
  splitlinesAux [] cs

/-- Whether `l` starts with `p` (plain list comparison). -/
def listStartsWith : List Char → List Char → Bool
  | [], _ => true
  | _ :: _, [] => false
  | p :: ps, c :: cs => p = c && listStartsWith ps cs

/-- Whether `pat` occurs as a contiguous substring of `l` (model of
Python's `pat in s`). -/
def listContainsSub (pat : List Char) : List Char → Bool
  | [] => pat.isEmpty
  | c :: rest => listStartsWith pat (c :: rest) || listContainsSub pat rest

/-- Join lines with a newline (model of `"\n".join`). -/
def joinNL : List (List Char) → List Char
  | [] => []
  | [l] => l
  | l :: ls => l ++ '\n' :: joinNL ls

/-! ## The float regex `[-+]?\d+(?:\.\d+)?(?:[eE][-+]?\d+)?` (FLOAT_RE)

The matcher is split into the four stages of the pattern; each stage
returns the consumed characters and the remainder, and each satisfies
the decomposition identity `consumed ++ rest = input`, exactly mirroring
the backtracking behaviour of the regex (an optional group that cannot
complete consumes nothing). -/

/-- Stage `[-+]?` of FLOAT_RE. -/
def matchSign (cs : List Char) : List Char × List Char :=
  match cs with
  | c :: rest => if c = '-' ∨ c = '+' then ([c], rest) else ([], c :: rest)
  | [] => ([], [])

/-- Stage `(?:\.\d+)?` of FLOAT_RE: a dot not followed by a digit is
left unconsumed. -/
def matchFrac (cs : List Char) : List Char × List Char :=
  match cs with
  | c :: rest =>
    if c = '.' then
      if (rest.takeWhile Char.isDigit).isEmpty then ([], c :: rest)
      else (c :: rest.takeWhile Char.isDigit, rest.dropWhile Char.isDigit)
    else ([], c :: rest)
  | [] => ([], [])

/-- Stage `(?:[eE][-+]?\d+)?` of FLOAT_RE: an `e`/`E` with no complete
exponent after it is left unconsumed. -/
def matchExpPart (cs : List Char) : List Char × List Char :=
  match cs with
  | c :: d :: rest =>
    if c = 'e' ∨ c = 'E' then
      if d = '-' ∨ d = '+' then
        if (rest.takeWhile Char.isDigit).isEmpty then ([], c :: d :: rest)
        else (c :: d :: rest.takeWhile Char.isDigit, rest.dropWhile Char.isDigit)
      else
        if ((d :: rest).takeWhile Char.isDigit).isEmpty then ([], c :: d :: rest)
        else (c :: (d :: rest).takeWhile Char.isDigit, (d :: rest).dropWhile Char.isDigit)
    else ([], c :: d :: rest)
  | other => ([], other)

/-- Attempt to match FLOAT_RE at the start of `cs`; on success returns
the matched characters and the remainder. -/
def matchFloatAt (cs : List Char) : Option (List Char × List Char) :=
  let sg := (matchSign cs).1
  let cs1 := (matchSign cs).2
  let ds := cs1.takeWhile Char.isDigit
  let cs2 := cs1.dropWhile Char.isDigit
  if ds.isEmpty then none
  else
    let fr := (matchFrac cs2).1
    let cs3 := (matchFrac cs2).2
    let ex := (matchExpPart cs3).1
    let cs4 := (matchExpPart cs3).2
    some (sg ++ ds ++ fr ++ ex, cs4)

theorem matchSign_append (cs : List Char) :
    (matchSign cs).1 ++ (matchSign cs).2 = cs := by
  cases cs with
  | nil => rfl
  | cons c rest =>
    simp only [matchSign]
    split <;> simp

theorem matchFrac_append (cs : List Char) :
    (matchFrac cs).1 ++ (matchFrac cs).2 = cs := by
  cases cs with
  | nil => rfl
  | cons c rest =>
    simp only [matchFrac]
    split
    · split
      · simp
      · simp [List.takeWhile_append_dropWhile]
    · simp

theorem matchExpPart_append (cs : List Char) :
    (matchExpPart cs).1 ++ (matchExpPart cs).2 = cs := by
  match cs with
  | [] => rfl
  | [c] => rfl
  | c :: d :: rest =>
    simp only [matchExpPart]
    split
    · split
      · split
        · simp
        · simp [List.takeWhile_append_dropWhile]
      · split
        · simp
        · simp [List.takeWhile_append_dropWhile]
    · simp

theorem matchFloatAt_append {cs : List Char} {mr : List Char × List Char}
    (h : matchFloatAt cs = some mr) : mr.1 ++ mr.2 = cs := by
  simp only [matchFloatAt] at h
  split at h
  · exact absurd h (by simp)
  · injection h with h
    subst h
    simp only [List.append_assoc, matchExpPart_append, matchFrac_append,
      List.takeWhile_append_dropWhile, matchSign_append]

theorem matchFloatAt_fst_ne_nil {cs : List Char} {mr : List Char × List Char}
    (h : matchFloatAt cs = some mr) : mr.1 ≠ [] := by
  simp only [matchFloatAt] at h
  split at h
  · exact absurd h (by simp)
  · injection h with h
    subst h
    rename_i hds
    simp only [List.isEmpty_eq_true] at hds
    intro hc
    simp only [List.append_eq_nil] at hc
    exact hds hc.1.1.2

theorem matchFloatAt_rest_lt {cs : List Char} {mr : List Char × List Char}
    (h : matchFloatAt cs = some mr) : mr.2.length < cs.length := by
  have happ := matchFloatAt_append h
  have hne := matchFloatAt_fst_ne_nil h
  have := congrArg List.length happ
  rw [List.length_append] at this
  have hpos : 0 < mr.1.length := List.length_pos.mpr hne
  omega

/-- Scan for all non-overlapping FLOAT_RE matches, left to right.  The
`fuel` argument only bounds the recursion so that the definition is
structural (hence kernel-computable); every step strictly shortens the
input, so any `fuel ≥ cs.length` gives the same result
(`floatFindallAux_fuel_irrel` below): the scan itself never stops early. -/
def floatFindallAux : Nat → List Char → List (List Char)
  | 0, _ => []
  | fuel + 1, cs =>
    match matchFloatAt cs with
    | some mr => mr.1 :: floatFindallAux fuel mr.2
    | none =>
      match cs with
      | [] => []
      | _ :: rest => floatFindallAux fuel rest

/-- All non-overlapping FLOAT_RE matches, scanning left to right
(model of `FLOAT_RE.findall`). -/
def floatFindall (cs : List Char) : List (List Char) :=
  floatFindallAux cs.length cs

/-- The fuel bound in `floatFindallAux` is immaterial: any two
sufficient fuels agree, so `floatFindall` is the unbounded scan. -/
theorem floatFindallAux_fuel_irrel :
    ∀ fuel fuel2 cs, cs.length ≤ fuel → cs.length ≤ fuel2 →
      floatFindallAux fuel cs = floatFindallAux fuel2 cs := by
  intro fuel
  induction fuel with
  | zero =>
    intro fuel2 cs h1 _
    have : cs = [] := List.eq_nil_of_length_eq_zero (Nat.le_zero.mp h1)
    subst this
    cases fuel2 <;> rfl
  | succ n ih =>
    intro fuel2 cs h1 h2
    cases fuel2 with
    | zero =>
      have : cs = [] := List.eq_nil_of_length_eq_zero (Nat.le_zero.mp h2)
      subst this
      rfl
    | succ m =>
      simp only [floatFindallAux]
      cases hm : matchFloatAt cs with
      | some mr =>
        have hlt := matchFloatAt_rest_lt hm
        dsimp only
        rw [ih m mr.2 (by omega) (by omega)]
      | none =>
        cases cs with
        | nil => rfl
        | cons c rest =>
          simp only [List.length_cons] at h1 h2
          dsimp only
          rw [ih m rest (by omega) (by omega)]

/-- Whether FLOAT_RE matches anywhere in `cs` (model of
`FLOAT_RE.search`). -/
def floatSearch : List Char → Bool
  | [] => false
  | c :: rest => (matchFloatAt (c :: rest)).isSome || floatSearch rest

/-! ## Converting a FLOAT_RE match to its value (model of Python float()) -/

/-- Decimal value of a digit string. -/
def digitsToNat (ds : List Char) : Nat :=
  ds.foldl (fun a c => a * 10 + (c.toNat - 48)) 0

/-- Value of the consumed `(?:\.\d+)?` part. -/
def fracVal (fr : List Char) : ℚ :=
  match fr with
  | _ :: ds => (digitsToNat ds : ℚ) / ((10 : ℚ) ^ ds.length)
  | [] => 0

/-- Value of the consumed `(?:[eE][-+]?\d+)?` part. -/
def expVal (ex : List Char) : Int :=
  match ex with
  | _ :: d :: rest =>
    if d = '-' then -(digitsToNat rest : Int)
    else if d = '+' then (digitsToNat rest : Int)
    else (digitsToNat (d :: rest) : Int)
  | _ => 0

/-- Exact value of a string matched by FLOAT_RE (the decimal literals
INSPECT prints are exact rationals, so `ℚ` models Python `float` here). -/
def parseFloatMatch (m : List Char) : ℚ :=
  let sg := (matchSign m).1
  let m1 := (matchSign m).2
  let ds := m1.takeWhile Char.isDigit
  let m2 := m1.dropWhile Char.isDigit
  let fr := (matchFrac m2).1
  let m3 := (matchFrac m2).2
  let ex := (matchExpPart m3).1
  let mant : ℚ := (digitsToNat ds : ℚ) + fracVal fr
  let signFactor : ℚ := if sg = ['-'] then -1 else 1
  signFactor * mant * (10 : ℚ) ^ (expVal ex)

/-! ## parse_pre_block -/

/-- Outcome of a raised Python exception: `systemExit` is raised by
`sys.exit` and is NOT a subclass of `Exception`; `exception` covers
every `Exception` subclass (`RuntimeError`, `requests.HTTPError`, ...)
with its message. -/
inductive PyErr where
  | systemExit (code : Nat)
  | exception (msg : String)
deriving DecidableEq, Repr

deriving instance DecidableEq for Except

/-- The non-blank lines of the `<pre>` text:
`[ln for ln in text.splitlines() if ln.strip()]`. -/
def preLines (text : List Char) : List (List Char) :=
  (splitlinesChars text).filter (fun ln => !(ln.all isPySpace))

/-- Model of `parse_pre_block`.  The input is the text of the `<pre>`
element of the response (`none` when the page has no `<pre>`).  Output:
the parsed field/value pairs in insertion order, or the raised error. -/
def parse_pre_block (pre? : Option String) : Except PyErr (List (String × ℚ)) :=
  match pre? with
  | none => .error (.systemExit 1)
  | some text =>
    let lines := preLines text.data
    if lines.isEmpty then .error (.exception "Empty results block.")
    else
      match lines.reverse.find? floatSearch with
      | none => .error (.exception "Could not locate numeric result line.")
      | some value_line =>
        let nums := (floatFindall value_line).map parseFloatMatch
        let header := (joinNL (lines.take 2)).map Char.toLower
        if listContainsSub ['e', 'w'] header ∧ 5 ≤ nums.length then
          .ok [("EW_mA", nums.getD 0 0), ("A_LTE", nums.getD 1 0), ("A_NLTE", nums.getD 2 0),
               ("Delta", nums.getD 3 0), ("OFe_NLTE", nums.getD 4 0)]
        else if nums.length = 5 then
          .ok [("EW_mA", nums.getD 0 0), ("A_LTE", nums.getD 1 0), ("A_NLTE", nums.getD 2 0),
               ("Delta", nums.getD 3 0), ("OFe_NLTE", nums.getD 4 0)]
        else if nums.length = 4 then
          .ok [("A_LTE", nums.getD 0 0), ("A_NLTE", nums.getD 1 0), ("Delta", nums.getD 2 0),
               ("OFe_NLTE", nums.getD 3 0)]
        else if nums.length = 3 then
          .ok [("A_LTE", nums.getD 0 0), ("A_NLTE", nums.getD 1 0), ("Delta", nums.getD 2 0)]
        else
          .error (.exception ("Unrecognized numeric format in result line: "
            ++ String.mk value_line))

/-! ## Dropdown lines, fetch_available_lines, choose_wi_from_wavelength -/

/-- One entry of the parsed `<select name="wi">` dropdown:
`(wi_index, wavelength_A, label_text)`.  `wav = none` models the
`float("nan")` stored when `float(txt)` raises. -/
structure DLine where
  wi : Int
  wav : Option ℚ
  txt : String
deriving DecidableEq, Repr

/-- One `<option>` element of the dropdown page, after attribute
extraction: `value?` is the result of `int(opt.get("value","").strip())`
(`none` when the attribute is blank or not an integer — both cases hit
`continue` in the source), `wavParsed` the result of `float(opt.text.strip())`
(`none` when that raises, stored as NaN). -/
structure RawOption where
  value? : Option Int
  wavParsed : Option ℚ
  txt : String
deriving DecidableEq, Repr

/-- Model of `fetch_available_lines`.  The input is the dropdown page:
`none` when the page has no `<select name="wi">`, otherwise its option
elements.  Raises `RuntimeError` exactly as the source does. -/
def fetch_available_lines (sel? : Option (List RawOption)) : Except PyErr (List DLine) :=
  match sel? with
  | none => .error (.exception "Could not find wavelength selector for element.")
  | some opts =>
    let lines := opts.filterMap (fun o => o.value?.map (fun wi => DLine.mk wi o.wavParsed o.txt))
    if lines.isEmpty then .error (.exception "No lines found for element.")
    else .ok lines

/-- Python `abs` on a (non-NaN) float, written so that it reduces in
the kernel; agrees with `|q|` (`absq_eq_abs`). -/
def absq (q : ℚ) : ℚ := if q < 0 then -q else q

theorem absq_eq_abs (q : ℚ) : absq q = |q| := by
  unfold absq
  split
  · exact (abs_of_neg (by assumption)).symm
  · exact (abs_of_nonneg (by linarith [not_lt.mp (by assumption)])).symm

/-- The loop guard `not math.isnan(wav) and abs(wav - wavelength) < 1e-6`. -/
def withinTol (wavelength : ℚ) (w : Option ℚ) : Bool :=
  match w with
  | some q => absq (q - wavelength) < 1 / 1000000
  | none => false

/-- The sort key `abs(t[1] - wavelength) if not isnan(t[1]) else inf`:
`none` models `float("inf")`. -/
def distKey (wavelength : ℚ) (l : DLine) : Option ℚ :=
  l.wav.map (fun q => absq (q - wavelength))

/-- Strict comparison of keys, `none` being `inf`. -/
def keyLt : Option ℚ → Option ℚ → Bool
  | some a, some b => a < b
  | some _, none => true
  | none, _ => false

/-- Model of Python `min(lines, key=...)`: first element attaining the
minimal key; `none` on the empty list (where `min` raises). -/
def pyMinBy (key : DLine → Option ℚ) : List DLine → Option DLine
  | [] => none
  | x :: xs => some (xs.foldl (fun best y => if keyLt (key y) (key best) then y else best) x)

/-- Model of `choose_wi_from_wavelength`, taking the already fetched
dropdown lines: first line within `1e-6` of the request if any,
otherwise the nearest by `distKey`. -/
def choose_wi_from_wavelength (wavelength : ℚ) (lines : List DLine) :
    Option (Int × Option ℚ) :=
  match lines.find? (fun l => withinTol wavelength l.wav) with
  | some l => some (l.wi, l.wav)
  | none => (pyMinBy (distKey wavelength) lines).map (fun l => (l.wi, l.wav))

/-- Model of the `--wi` path of `main`: `wav_map = {widx: wav ...}` and
`wav_map.get(wi, float("nan"))`.  A dict comprehension keeps the LAST
binding of a duplicated key, hence the reversed search. -/
def wavMapGet (lines : List DLine) (wi : Int) : Option ℚ :=
  match lines.reverse.find? (fun l => l.wi = wi) with
  | some l => l.wav
  | none => none

/-- The `(wi, matched_wav)` pair main uses when `--wi` is given:
the argument is used as-is, with no validation. -/
def resolve_by_wi (wiArg : Int) (lines : List DLine) : Int × Option ℚ :=
  (wiArg, wavMapGet lines wiArg)

/-! ## Endpoints and query requests -/

def BASE : String := "https://www.inspect-stars.com"

def ENDPOINT_EW : String := BASE ++ "/A_from_e"

def ENDPOINT_LTE : String := BASE ++ "/nonlte_from_lte"

/-- A query-string value.  The source renders numbers with `f"{v:g}"`
and the index with `str(wi)`; the rendering is kept symbolic since no
claim concerns the decimal formatting itself. -/
inductive PVal where
  | str (s : String)
  | num (q : ℚ)
  | int (n : Int)
deriving DecidableEq, Repr

/-- An outgoing HTTP request as built by the query functions. -/
structure Request where
  method : String
  url : String
  params : List (String × PVal)
deriving DecidableEq, Repr

/-- The GET request issued by `query_A_from_e`. -/
def query_A_from_e_request (element : String) (ew_mA teff logg feh vt : ℚ)
    (wi : Int) : Request :=
  { method := "GET"
    url := ENDPOINT_EW
    params := [("element_name", .str element), ("e", .num ew_mA),
               ("t", .num teff), ("g", .num logg), ("f", .num feh), ("x", .num vt),
               ("wi", .int wi)] }

/-- The GET request issued by `query_nlte_from_lte`. -/
def query_nlte_from_lte_request (element : String) (A_lte teff logg feh vt : ℚ)
    (wi : Int) : Request :=
  { method := "GET"
    url := ENDPOINT_LTE
    params := [("element_name", .str element), ("A_lte", .num A_lte),
               ("t", .num teff), ("g", .num logg), ("f", .num feh), ("x", .num vt),
               ("wi", .int wi)] }

/-! ## Retry policy (make_session) -/

/-- The `urllib3.util.retry.Retry` object constructed in `make_session`,
with the fields the source sets. -/
structure RetryPolicy where
  total : Int
  backoff_factor : ℚ
  status_forcelist : List Nat
  allowed_methods : List String
deriving DecidableEq, Repr

/-- The retry policy `make_session` installs on the session. -/
def make_session_retry : RetryPolicy :=
  { total := 5
    backoff_factor := 1 / 2
    status_forcelist := [429, 500, 502, 503, 504]
    allowed_methods := ["GET"] }

/-- urllib3 `Retry._is_method_retryable`: the method must be in
`allowed_methods`. -/
def isMethodRetryable (p : RetryPolicy) (method : String) : Bool :=
  p.allowed_methods.contains method

/-- urllib3 `Retry.is_retry` for a status-based retry: retryable method
and status in `status_forcelist`. -/
def isRetry (p : RetryPolicy) (method : String) (status : Nat) : Bool :=
  isMethodRetryable p method && p.status_forcelist.contains status

/-- urllib3 exhaustion rule: each retry decrements `total`; a retry is
refused once the count would drop below zero, so after `n` consecutive
failures the policy is exhausted iff `n > total`. -/
def retryExhausted (p : RetryPolicy) (failures : Nat) : Bool :=
  p.total - (failures : Int) < 0

/-! ## The per-value loop of main -/

/-- A CSV cell value: Python puts strings, ints and floats (possibly
NaN) into the row dicts. -/
inductive Cell where
  | str (s : String)
  | num (q : ℚ)
  | nan
  | int (n : Int)
deriving DecidableEq, Repr

/-- A row dict, as an association list in insertion order. -/
def CsvRow : Type := List (String × Cell)

instance : DecidableEq CsvRow := by
  unfold CsvRow
  exact inferInstance

/-- The cell written for a possibly-NaN wavelength. -/
def wavCell : Option ℚ → Cell
  | some q => .num q
  | none => .nan

/-- The fixed per-run context of `main`: CLI arguments plus the
resolved line index and matched wavelength. -/
structure RunCfg where
  element : String
  mode : String
  teff : ℚ
  logg : ℚ
  feh : ℚ
  vt : ℚ
  wi : Int
  matched_wav : Option ℚ
deriving DecidableEq, Repr

/-- What the network returned for one value's request, made explicit:
either a transport/status failure (`requests` raises an `Exception`
subclass carrying `msg`), or a body whose `<pre>` text is `pre?`. -/
inductive QueryResponse where
  | httpError (msg : String)
  | body (pre? : Option String)
deriving DecidableEq, Repr

/-- Model of `query_A_from_e` applied to an explicit response:
`raise_for_status`, then `parse_pre_block`, then `out.update({"mode": "ew"})`. -/
def query_A_from_e (resp : QueryResponse) : Except PyErr (List (String × Cell)) :=
  match resp with
  | .httpError msg => .error (.exception msg)
  | .body pre? =>
    (parse_pre_block pre?).map
      (fun fs => fs.map (fun p => (p.1, Cell.num p.2)) ++ [("mode", Cell.str "ew")])

/-- Model of `query_nlte_from_lte` applied to an explicit response. -/
def query_nlte_from_lte (resp : QueryResponse) : Except PyErr (List (String × Cell)) :=
  match resp with
  | .httpError msg => .error (.exception msg)
  | .body pre? =>
    (parse_pre_block pre?).map
      (fun fs => fs.map (fun p => (p.1, Cell.num p.2)) ++ [("mode", Cell.str "lte")])

/-- The query `main` runs for one input value: `if args.mode == "ew"`. -/
def queryResult (cfg : RunCfg) (resp : QueryResponse) :
    Except PyErr (List (String × Cell)) :=
  if cfg.mode = "ew" then query_A_from_e resp else query_nlte_from_lte resp

/-- The `res.update({...})` fields main appends to a successful result. -/
def contextFields (cfg : RunCfg) (v : ℚ) : List (String × Cell) :=
  [("element", .str cfg.element), ("wi", .int cfg.wi),
   ("wavelength_A", wavCell cfg.matched_wav),
   ("Teff", .num cfg.teff), ("logg", .num cfg.logg), ("FeH", .num cfg.feh),
   ("vt", .num cfg.vt), ("input_value", .num v)]

/-- The `err_row` dict built in the `except Exception` handler,
with `str(exc)[:300]`. -/
def errRow (cfg : RunCfg) (v : ℚ) (msg : String) : CsvRow :=
  [("mode", .str cfg.mode), ("element", .str cfg.element), ("wi", .int cfg.wi),
   ("wavelength_A", wavCell cfg.matched_wav),
   ("Teff", .num cfg.teff), ("logg", .num cfg.logg), ("FeH", .num cfg.feh),
   ("vt", .num cfg.vt), ("input_value", .num v), ("error", .str (msg.take 300))]

/-- One iteration of the loop body of `main`: the `try`/`except
Exception` catches `exception` (appending `err_row`) but NOT
`systemExit`, which escapes with its exit code. -/
def processOne (cfg : RunCfg) (v : ℚ) (resp : QueryResponse) : Except Nat CsvRow :=
  match queryResult cfg resp with
  | .ok fields => .ok (fields ++ contextFields cfg v)
  | .error (.exception msg) => .ok (errRow cfg v msg)
  | .error (.systemExit code) => .error code

/-- The whole loop of `main` over the input values paired with their
responses: a `systemExit` aborts the run (no CSV at all), otherwise one
row accumulates per value, in order. -/
def runBatch (cfg : RunCfg) : List (ℚ × QueryResponse) → Except Nat (List CsvRow)
  | [] => .ok []
  | (v, resp) :: rest =>
    match processOne cfg v resp with
    | .error code => .error code
    | .ok row =>
      match runBatch cfg rest with
      | .error code => .error code
      | .ok rows => .ok (row :: rows)

/-! ## write_csv -/

/-- The fixed preferred column ordering of `write_csv`. -/
def preferred : List String :=
  ["mode", "element", "wi", "wavelength_A", "Teff", "logg", "FeH", "vt",
   "input_value", "EW_mA", "A_LTE", "A_NLTE", "Delta", "OFe_NLTE", "error"]

/-- The keys of a row dict. -/
def rowKeys (r : CsvRow) : List String := r.map Prod.fst

/-- The set `cols` accumulated over all rows (`set.update(r.keys())`),
modelled as a duplicate-free list; only membership and the sorted image
are ever used, so the arbitrary set iteration order is irrelevant. -/
def colsOf (rows : List CsvRow) : List String :=
  (rows.flatMap rowKeys).dedup

/-- The header `write_csv` emits:
`[c for c in preferred if c in cols] + [c for c in sorted(cols) if c not in preferred]`. -/
def csvHeader (rows : List CsvRow) : List String :=
  let cols := colsOf rows
  preferred.filter (fun c => cols.contains c)
    ++ (List.insertionSort (fun a b : String => a ≤ b) cols).filter
        (fun c => !(preferred.contains c))

/-- Model of `write_csv`: `none` when nothing is written (empty row
list), otherwise the emitted header line and data rows. -/
def write_csv (rows : List CsvRow) : Option (List String × List CsvRow) :=
  if rows.isEmpty then none else some (csvHeader rows, rows)

/-- End-to-end: the CSV `main` produces for a run, `none` when the
process dies before `write_csv` (SystemExit escaping the loop). -/
def batchCsv (cfg : RunCfg) (pairs : List (ℚ × QueryResponse)) :
    Option (List String × List CsvRow) :=
  match runBatch cfg pairs with
  | .error _ => none
  | .ok rows => write_csv rows

/-- The request `main` issues for input value `v` (`if args.mode == "ew"`). -/
def requestFor (cfg : RunCfg) (v : ℚ) : Request :=
  if cfg.mode = "ew" then
    query_A_from_e_request cfg.element v cfg.teff cfg.logg cfg.feh cfg.vt cfg.wi
  else
    query_nlte_from_lte_request cfg.element v cfg.teff cfg.logg cfg.feh cfg.vt cfg.wi

/-! ## Helper lemmas -/

/-- `parse_pre_block` can only raise `SystemExit` when the `<pre>` block
is absent. -/
theorem parse_some_no_exit (s : String) (c : Nat) :
    parse_pre_block (some s) ≠ .error (.systemExit c) := by
  intro h
  simp only [parse_pre_block] at h
  split at h
  · simp at h
  · split at h
    · simp at h
    · split at h
      · simp at h
      · split at h
        · simp at h
        · split at h
          · simp at h
          · split at h
            · simp at h
            · simp at h

/-- Every field name produced by `parse_pre_block` is one of the five
result columns. -/
theorem parse_pre_block_keys {pre? : Option String} {fs : List (String × ℚ)}
    (h : parse_pre_block pre? = .ok fs) :
    ∀ p ∈ fs, p.1 = "EW_mA" ∨ p.1 = "A_LTE" ∨ p.1 = "A_NLTE" ∨
      p.1 = "Delta" ∨ p.1 = "OFe_NLTE" := by
  cases pre? with
  | none => simp [parse_pre_block] at h
  | some text =>
    simp only [parse_pre_block] at h
    split at h
    · simp at h
    · split at h
      · simp at h
      · split at h
        · injection h with h
          subst h
          intro p hp
          simp only [List.mem_cons, List.not_mem_nil, or_false] at hp
          rcases hp with rfl | rfl | rfl | rfl | rfl <;> simp
        · split at h
          · injection h with h
            subst h
            intro p hp
            simp only [List.mem_cons, List.not_mem_nil, or_false] at hp
            rcases hp with rfl | rfl | rfl | rfl | rfl <;> simp
          · split at h
            · injection h with h
              subst h
              intro p hp
              simp only [List.mem_cons, List.not_mem_nil, or_false] at hp
              rcases hp with rfl | rfl | rfl | rfl <;> simp
            · split at h
              · injection h with h
                subst h
                intro p hp
                simp only [List.mem_cons, List.not_mem_nil, or_false] at hp
                rcases hp with rfl | rfl | rfl <;> simp
              · simp at h

/-- A missing-`<pre>` body makes either query function raise
`SystemExit 1`. -/
theorem queryResult_body_none (cfg : RunCfg) :
    queryResult cfg (.body none) = .error (.systemExit 1) := by
  unfold queryResult query_A_from_e query_nlte_from_lte
  split <;> rfl

/-- Hitting a response whose page has no `<pre>` raises SystemExit 1
out of the loop. -/
theorem processOne_body_none (cfg : RunCfg) (v : ℚ) :
    processOne cfg v (.body none) = .error 1 := by
  unfold processOne
  rw [queryResult_body_none]

/-- The query step raises `SystemExit` only for a missing-`<pre>` body,
and then with code 1. -/
theorem queryResult_exit {cfg : RunCfg} {resp : QueryResponse} {code : Nat}
    (h : queryResult cfg resp = .error (.systemExit code)) :
    resp = .body none ∧ code = 1 := by
  unfold queryResult query_A_from_e query_nlte_from_lte at h
  split at h <;>
  · cases resp with
    | httpError m => simp at h
    | body pre? =>
      cases pre? with
      | none =>
        refine ⟨rfl, ?_⟩
        simp only [parse_pre_block, Except.map] at h
        injection h with h2
        injection h2 with h3
        exact h3.symm
      | some s =>
        exfalso
        dsimp only at h
        cases hp : parse_pre_block (some s) with
        | ok fs =>
          rw [hp] at h
          simp [Except.map] at h
        | error e =>
          rw [hp] at h
          simp only [Except.map] at h
          injection h with h2
          rw [h2] at hp
          exact parse_some_no_exit s code hp

/-- The loop body aborts only with exit code 1, and only on a
missing-`<pre>` body. -/
theorem processOne_error_code {cfg : RunCfg} {v : ℚ} {resp : QueryResponse} {c : Nat}
    (h : processOne cfg v resp = .error c) : c = 1 ∧ resp = .body none := by
  unfold processOne at h
  split at h
  · simp at h
  · simp at h
  · rename_i code hq
    injection h with h
    subst h
    have := queryResult_exit hq
    exact ⟨this.2, this.1⟩

/-- A loop iteration on any response other than a missing-`<pre>` body
produces a row. -/
theorem processOne_ok_of_not_none {cfg : RunCfg} {v : ℚ} {resp : QueryResponse}
    (h : resp ≠ .body none) : ∃ row, processOne cfg v resp = .ok row := by
  cases hp : processOne cfg v resp with
  | ok row => exact ⟨row, rfl⟩
  | error c => exact absurd (processOne_error_code hp).2 h

/-- A batch containing a missing-`<pre>` response aborts with exit code 1. -/
theorem runBatch_error_of_mem {cfg : RunCfg} {pairs : List (ℚ × QueryResponse)}
    (hmem : ∃ p ∈ pairs, p.2 = .body none) : runBatch cfg pairs = .error 1 := by
  induction pairs with
  | nil => simp at hmem
  | cons p rest ih =>
    rcases p with ⟨v, resp⟩
    obtain ⟨q, hq, hqe⟩ := hmem
    rcases List.mem_cons.mp hq with heq | hqrest
    · have hresp : resp = .body none := by
        rw [heq] at hqe
        exact hqe
      unfold runBatch
      rw [hresp, processOne_body_none]
    · unfold runBatch
      cases hp : processOne cfg v resp with
      | error c =>
        simp [(processOne_error_code hp).1]
      | ok row =>
        rw [ih ⟨q, hqrest, hqe⟩]

/-- With no missing-`<pre>` response, the batch yields one row per
input pair, in order, each row produced by its own iteration. -/
theorem runBatch_ok_of_no_exit {cfg : RunCfg} {pairs : List (ℚ × QueryResponse)}
    (h : ∀ p ∈ pairs, p.2 ≠ .body none) :
    ∃ rows, runBatch cfg pairs = .ok rows ∧ rows.length = pairs.length ∧
      ∀ i (hi : i < pairs.length), ∃ hri : i < rows.length,
        processOne cfg (pairs.get ⟨i, hi⟩).1 (pairs.get ⟨i, hi⟩).2
          = .ok (rows.get ⟨i, hri⟩) := by
  induction pairs with
  | nil =>
    refine ⟨[], rfl, rfl, ?_⟩
    intro i hi
    simp at hi
  | cons p rest ih =>
    rcases p with ⟨v, resp⟩
    obtain ⟨row, hrow⟩ := processOne_ok_of_not_none (h (v, resp) (List.mem_cons_self _ _))
    obtain ⟨rows, hrows, hlen, hget⟩ := ih (fun q hq => h q (List.mem_cons_of_mem _ hq))
    refine ⟨row :: rows, ?_, by simp [hlen], ?_⟩
    · unfold runBatch
      rw [hrow, hrows]
    · intro i hi
      cases i with
      | zero => exact ⟨by simp, hrow⟩
      | succ n =>
        have hn : n < rest.length := by simpa using hi
        obtain ⟨hr, hpn⟩ := hget n hn
        exact ⟨by simpa using hr, hpn⟩

/-- Positionally, a successful batch's rows are exactly the images of
their own input pair under the loop body. -/
theorem runBatch_getElem? {cfg : RunCfg} {pairs : List (ℚ × QueryResponse)}
    {rows : List CsvRow} (h : runBatch cfg pairs = .ok rows) (i : Nat) :
    rows[i]? = (pairs[i]?).bind (fun p => (processOne cfg p.1 p.2).toOption) := by
  induction pairs generalizing rows i with
  | nil =>
    have : rows = [] := by
      unfold runBatch at h
      injection h with h
      exact h.symm
    subst this
    simp
  | cons p rest ih =>
    rcases p with ⟨v, resp⟩
    unfold runBatch at h
    cases hp : processOne cfg v resp with
    | error c =>
      rw [hp] at h
      simp at h
    | ok row =>
      rw [hp] at h
      cases hr : runBatch cfg rest with
      | error c =>
        rw [hr] at h
        simp at h
      | ok rows2 =>
        rw [hr] at h
        injection h with h
        subst h
        cases i with
        | zero => simp [hp, Except.toOption]
        | succ n => simpa using ih hr n

/-- Every row of a successful batch comes from some input pair. -/
theorem runBatch_mem {cfg : RunCfg} {pairs : List (ℚ × QueryResponse)}
    {rows : List CsvRow} (h : runBatch cfg pairs = .ok rows) :
    ∀ row ∈ rows, ∃ p ∈ pairs, processOne cfg p.1 p.2 = .ok row := by
  induction pairs generalizing rows with
  | nil =>
    have : rows = [] := by
      unfold runBatch at h
      injection h with h
      exact h.symm
    subst this
    simp
  | cons p rest ih =>
    rcases p with ⟨v, resp⟩
    unfold runBatch at h
    cases hp : processOne cfg v resp with
    | error c =>
      rw [hp] at h
      simp at h
    | ok row0 =>
      rw [hp] at h
      cases hr : runBatch cfg rest with
      | error c =>
        rw [hr] at h
        simp at h
      | ok rows2 =>
        rw [hr] at h
        injection h with h
        subst h
        intro row hrow
        rcases List.mem_cons.mp hrow with rfl | hmem
        · exact ⟨(v, resp), List.mem_cons_self _ _, hp⟩
        · obtain ⟨q, hq, hqp⟩ := ih hr row hmem
          exact ⟨q, List.mem_cons_of_mem _ hq, hqp⟩

/-! ## Claim theorems -/

/-- C6: `make_session` configures retries with `total = 5` and
exponential backoff factor `0.5`, status-based retry exactly for the
HTTP statuses 429, 500, 502, 503, 504 on GET, and no retry for any
other method; after more than 5 consecutive failures the policy is
exhausted. -/
theorem make_session_retry_policy :
    make_session_retry.total = 5 ∧
    make_session_retry.backoff_factor = 1 / 2 ∧
    (∀ method status, isRetry make_session_retry method status = true ↔
      (method = "GET" ∧ (status = 429 ∨ status = 500 ∨ status = 502 ∨
        status = 503 ∨ status = 504))) ∧
    (∀ method status, method ≠ "GET" → isRetry make_session_retry method status = false) ∧
    (∀ failures : Nat, retryExhausted make_session_retry failures = true ↔ 5 < failures) := by
  refine ⟨rfl, rfl, ?_, ?_, ?_⟩
  · intro m s
    simp [isRetry, isMethodRetryable, make_session_retry]
  · intro m s hm
    simp [isRetry, isMethodRetryable, make_session_retry]
    intro hc
    exact absurd hc hm
  · intro f
    simp only [retryExhausted, make_session_retry, decide_eq_true_eq]
    omega

theorem make_session_retry_policy_witness :
    isRetry make_session_retry "GET" 503 = true ∧
    isRetry make_session_retry "POST" 503 = false ∧
    retryExhausted make_session_retry 6 = true ∧
    retryExhausted make_session_retry 5 = false := by
  refine ⟨?_, ?_, ?_, ?_⟩
  · exact (make_session_retry_policy.2.2.1 "GET" 503).mpr ⟨rfl, by simp⟩
  · exact make_session_retry_policy.2.2.2.1 "POST" 503 (by simp)
  · exact (make_session_retry_policy.2.2.2.2 6).mpr (by omega)
  · have := (make_session_retry_policy.2.2.2.2 5)
    cases hx : retryExhausted make_session_retry 5 with
    | false => rfl
    | true => exact absurd (this.mp hx) (by omega)

/-- C7: in mode "ew" the query for a value is a GET to
`https://www.inspect-stars.com/A_from_e` carrying the value as `e`; in
mode "lte" a GET to `https://www.inspect-stars.com/nonlte_from_lte`
carrying it as `A_lte`; both carry `element_name`, the stellar
parameters as `t`, `g`, `f`, `x`, and the line index as `wi`. -/
theorem query_requests_spec (cfg : RunCfg) (v : ℚ) :
    (cfg.mode = "ew" →
      (requestFor cfg v).method = "GET" ∧
      (requestFor cfg v).url = "https://www.inspect-stars.com/A_from_e" ∧
      (requestFor cfg v).params.lookup "e" = some (.num v) ∧
      (requestFor cfg v).params.lookup "element_name" = some (.str cfg.element) ∧
      (requestFor cfg v).params.lookup "t" = some (.num cfg.teff) ∧
      (requestFor cfg v).params.lookup "g" = some (.num cfg.logg) ∧
      (requestFor cfg v).params.lookup "f" = some (.num cfg.feh) ∧
      (requestFor cfg v).params.lookup "x" = some (.num cfg.vt) ∧
      (requestFor cfg v).params.lookup "wi" = some (.int cfg.wi)) ∧
    (cfg.mode = "lte" →
      (requestFor cfg v).method = "GET" ∧
      (requestFor cfg v).url = "https://www.inspect-stars.com/nonlte_from_lte" ∧
      (requestFor cfg v).params.lookup "A_lte" = some (.num v) ∧
      (requestFor cfg v).params.lookup "element_name" = some (.str cfg.element) ∧
      (requestFor cfg v).params.lookup "t" = some (.num cfg.teff) ∧
      (requestFor cfg v).params.lookup "g" = some (.num cfg.logg) ∧
      (requestFor cfg v).params.lookup "f" = some (.num cfg.feh) ∧
      (requestFor cfg v).params.lookup "x" = some (.num cfg.vt) ∧
      (requestFor cfg v).params.lookup "wi" = some (.int cfg.wi)) := by
  constructor
  · intro h
    unfold requestFor
    rw [if_pos h]
    exact ⟨rfl, rfl, rfl, rfl, rfl, rfl, rfl, rfl, rfl⟩
  · intro h
    have hne : ¬ cfg.mode = "ew" := by
      rw [h]
      decide
    unfold requestFor
    rw [if_neg hne]
    exact ⟨rfl, rfl, rfl, rfl, rfl, rfl, rfl, rfl, rfl⟩

theorem query_requests_spec_witness :
    (requestFor ⟨"O", "ew", 5777, 444/100, 0, 1, 3, some 7772⟩ 65).url
      = "https://www.inspect-stars.com/A_from_e" ∧
    (requestFor ⟨"O", "ew", 5777, 444/100, 0, 1, 3, some 7772⟩ 65).params.lookup "e"
      = some (.num 65) ∧
    (requestFor ⟨"O", "lte", 5777, 444/100, 0, 1, 3, some 7772⟩ (87/10)).url
      = "https://www.inspect-stars.com/nonlte_from_lte" ∧
    (requestFor ⟨"O", "lte", 5777, 444/100, 0, 1, 3, some 7772⟩ (87/10)).params.lookup "A_lte"
      = some (.num (87/10)) :=
  ⟨((query_requests_spec _ 65).1 rfl).2.1,
   ((query_requests_spec _ 65).1 rfl).2.2.1,
   ((query_requests_spec _ (87/10)).2 rfl).2.1,
   ((query_requests_spec _ (87/10)).2 rfl).2.2.1⟩

/-- C3: a response with no `<pre>` element makes `parse_pre_block` raise
SystemExit with exit code 1; the per-value handler catches only
`Exception`, of which `SystemExit` is not a subclass, so the whole batch
terminates with that code, `write_csv` is never reached and no CSV is
produced for any input value. -/
theorem systemexit_aborts_batch (cfg : RunCfg) (pairs : List (ℚ × QueryResponse))
    (hmem : ∃ p ∈ pairs, p.2 = .body none) :
    parse_pre_block none = .error (.systemExit 1) ∧
    runBatch cfg pairs = .error 1 ∧
    batchCsv cfg pairs = none := by
  refine ⟨rfl, runBatch_error_of_mem hmem, ?_⟩
  unfold batchCsv
  rw [runBatch_error_of_mem hmem]

theorem systemexit_aborts_batch_witness :
    parse_pre_block none = .error (.systemExit 1) ∧
    runBatch ⟨"O", "ew", 5777, 444/100, 0, 1, 3, some 7772⟩
      [(65, .body (some "EW\n65 8.7 8.5 -0.2 -0.1")), (80, .body none)] = .error 1 ∧
    batchCsv ⟨"O", "ew", 5777, 444/100, 0, 1, 3, some 7772⟩
      [(65, .body (some "EW\n65 8.7 8.5 -0.2 -0.1")), (80, .body none)] = none :=
  systemexit_aborts_batch _ _ ⟨(80, .body none), by simp, rfl⟩

/-- C10: `choose_wi_from_wavelength` is total on every non-empty line
list — when every wavelength is NaN it returns the first line rather
than failing — and `fetch_available_lines` returns a non-empty list or
raises, so the resolver never receives an empty list. -/
theorem resolver_total_and_nonempty :
    (∀ (w : ℚ) (lines : List DLine), lines ≠ [] →
      (choose_wi_from_wavelength w lines).isSome = true) ∧
    (∀ (w : ℚ) (l0 : DLine) (rest : List DLine),
      (∀ l ∈ l0 :: rest, l.wav = none) →
      choose_wi_from_wavelength w (l0 :: rest) = some (l0.wi, none)) ∧
    (∀ (sel? : Option (List RawOption)) (lines : List DLine),
      fetch_available_lines sel? = .ok lines → lines ≠ []) := by
  refine ⟨?_, ?_, ?_⟩
  · intro w lines hne
    unfold choose_wi_from_wavelength
    cases hf : lines.find? (fun l => withinTol w l.wav) with
    | some l => simp
    | none =>
      cases lines with
      | nil => exact absurd rfl hne
      | cons x xs => simp [pyMinBy]
  · intro w l0 rest hnan
    unfold choose_wi_from_wavelength
    have hfind : (l0 :: rest).find? (fun l => withinTol w l.wav) = none := by
      rw [List.find?_eq_none]
      intro l hl
      rw [hnan l hl]
      simp [withinTol]
    rw [hfind]
    have hfold : ∀ (xs : List DLine) (best : DLine), (∀ l ∈ xs, l.wav = none) →
        xs.foldl (fun b y => if keyLt (distKey w y) (distKey w b) then y else b) best
          = best := by
      intro xs
      induction xs with
      | nil => intro best _; rfl
      | cons x xs2 ih =>
        intro best hxs
        simp only [List.foldl_cons]
        have hx : distKey w x = none := by
          simp [distKey, hxs x (List.mem_cons_self _ _)]
        rw [show (if keyLt (distKey w x) (distKey w best) then x else best) = best by
          rw [hx]
          simp [keyLt]]
        exact ih best (fun l hl => hxs l (List.mem_cons_of_mem _ hl))
    simp only [pyMinBy]
    rw [hfold rest l0 (fun l hl => hnan l (List.mem_cons_of_mem _ hl))]
    simp [hnan l0 (List.mem_cons_self _ _)]
  · intro sel? lines h
    unfold fetch_available_lines at h
    cases sel? with
    | none => simp at h
    | some opts =>
      dsimp only at h
      split at h
      · simp at h
      · rename_i hne
        injection h with h
        subst h
        simpa using hne

theorem resolver_total_and_nonempty_witness :
    (choose_wi_from_wavelength 7772 [⟨3, none, "x"⟩]).isSome = true ∧
    choose_wi_from_wavelength 7772 [⟨3, none, "x"⟩, ⟨4, none, "y"⟩] = some (3, none) ∧
    ([⟨3, none, "7772"⟩] : List DLine) ≠ [] :=
  ⟨resolver_total_and_nonempty.1 7772 [⟨3, none, "x"⟩] (by simp),
   resolver_total_and_nonempty.2.1 7772 ⟨3, none, "x"⟩ [⟨4, none, "y"⟩]
     (by
       intro l hl
       simp only [List.mem_cons, List.not_mem_nil, or_false] at hl
       rcases hl with rfl | rfl <;> rfl),
   resolver_total_and_nonempty.2.2 (some [⟨some 3, none, "7772"⟩]) [⟨3, none, "7772"⟩] rfl⟩

/-! ## Row lookup helpers -/

/-- Keys of a successful query result: the parsed field names plus
`mode`. -/
theorem queryResult_ok_keys {cfg : RunCfg} {resp : QueryResponse}
    {fields : List (String × Cell)} (h : queryResult cfg resp = .ok fields) :
    ∀ p ∈ fields, p.1 = "EW_mA" ∨ p.1 = "A_LTE" ∨ p.1 = "A_NLTE" ∨
      p.1 = "Delta" ∨ p.1 = "OFe_NLTE" ∨ p.1 = "mode" := by
  unfold queryResult query_A_from_e query_nlte_from_lte at h
  split at h <;>
  · cases resp with
    | httpError m => simp at h
    | body pre? =>
      dsimp only at h
      cases hp : parse_pre_block pre? with
      | error e =>
        rw [hp] at h
        simp [Except.map] at h
      | ok fs =>
        rw [hp] at h
        simp only [Except.map] at h
        injection h with h
        subst h
        intro p hp2
        rcases List.mem_append.mp hp2 with hmem | hmem
        · obtain ⟨q, hq, rfl⟩ := List.mem_map.mp hmem
          have h5 := parse_pre_block_keys hp q hq
          tauto
        · simp only [List.mem_singleton] at hmem
          subst hmem
          simp

theorem lookup_append_of_no_key {l1 l2 : List (String × Cell)} {k : String}
    (h : ∀ p ∈ l1, p.1 ≠ k) : (l1 ++ l2).lookup k = l2.lookup k := by
  induction l1 with
  | nil => rfl
  | cons p l ih =>
    rcases p with ⟨a, b⟩
    have ha : a ≠ k := h (a, b) (List.mem_cons_self _ _)
    simp only [List.cons_append, List.lookup]
    rw [show (k == a) = false from beq_eq_false_iff_ne.mpr (fun hc => ha hc.symm)]
    exact ih (fun q hq => h q (List.mem_cons_of_mem _ hq))

theorem lookup_eq_none_of_no_key {l : List (String × Cell)} {k : String}
    (h : ∀ p ∈ l, p.1 ≠ k) : l.lookup k = none := by
  induction l with
  | nil => rfl
  | cons p l ih =>
    rcases p with ⟨a, b⟩
    have ha : a ≠ k := h (a, b) (List.mem_cons_self _ _)
    simp only [List.lookup]
    rw [show (k == a) = false from beq_eq_false_iff_ne.mpr (fun hc => ha hc.symm)]
    exact ih (fun q hq => h q (List.mem_cons_of_mem _ hq))

/-- Every row a loop iteration appends records the matched wavelength
cell under `wavelength_A`. -/
theorem processOne_wavelength {cfg : RunCfg} {v : ℚ} {resp : QueryResponse}
    {row : CsvRow} (h : processOne cfg v resp = .ok row) :
    row.lookup "wavelength_A" = some (wavCell cfg.matched_wav) := by
  unfold processOne at h
  split at h
  · rename_i fields heq
    injection h with h
    subst h
    rw [lookup_append_of_no_key]
    · rfl
    · intro p hp
      rcases queryResult_ok_keys heq p hp with h1 | h1 | h1 | h1 | h1 | h1 <;>
        simp [h1]
  · injection h with h
    subst h
    rfl
  · simp at h

/-- C9: a `--wi` index that does not occur in the element's dropdown is
used without validation: resolution does not fail but yields
`(wi, NaN)`, every query request carries that `wi`, and every output
row of a completed run records `wavelength_A` as NaN. -/
theorem unvalidated_wi (wiArg : Int) (lines : List DLine)
    (hnot : ∀ l ∈ lines, l.wi ≠ wiArg)
    (cfg : RunCfg) (hwi : cfg.wi = wiArg)
    (hwav : cfg.matched_wav = (resolve_by_wi wiArg lines).2)
    (v : ℚ) (pairs : List (ℚ × QueryResponse)) (rows : List CsvRow)
    (hrun : runBatch cfg pairs = .ok rows) :
    resolve_by_wi wiArg lines = (wiArg, none) ∧
    (requestFor cfg v).params.lookup "wi" = some (.int wiArg) ∧
    ∀ row ∈ rows, row.lookup "wavelength_A" = some Cell.nan := by
  have hmap : wavMapGet lines wiArg = none := by
    unfold wavMapGet
    rw [List.find?_eq_none.mpr]
    intro l hl
    simp only [decide_eq_true_eq]
    exact hnot l (List.mem_reverse.mp hl)
  have hres : resolve_by_wi wiArg lines = (wiArg, none) := by
    unfold resolve_by_wi
    rw [hmap]
  have hwavnone : cfg.matched_wav = none := by
    rw [hwav, hres]
  refine ⟨hres, ?_, ?_⟩
  · have hreq : (requestFor cfg v).params.lookup "wi" = some (.int cfg.wi) := by
      unfold requestFor
      split
      · rfl
      · rfl
    rw [hreq, hwi]
  · intro row hrow
    obtain ⟨p, _, hp⟩ := runBatch_mem hrun row hrow
    rw [processOne_wavelength hp, hwavnone]
    rfl

theorem unvalidated_wi_witness :
    resolve_by_wi 99 [⟨3, some 7772, "7772"⟩] = (99, none) ∧
    (requestFor ⟨"O", "ew", 5777, 444/100, 0, 1, 99, none⟩ 65).params.lookup "wi"
      = some (.int 99) ∧
    ∀ row ∈ [errRow ⟨"O", "ew", 5777, 444/100, 0, 1, 99, none⟩ 65 "boom"],
      row.lookup "wavelength_A" = some Cell.nan :=
  unvalidated_wi 99 [⟨3, some 7772, "7772"⟩]
    (by
      intro l hl
      simp only [List.mem_singleton] at hl
      subst hl
      decide)
    ⟨"O", "ew", 5777, 444/100, 0, 1, 99, none⟩ rfl rfl 65
    [(65, .httpError "boom")]
    [errRow ⟨"O", "ew", 5777, 444/100, 0, 1, 99, none⟩ 65 "boom"] rfl

/-- C8: the program keeps no state between queries: modelling each
HTTP response as an explicit input, the row at a position of a
completed run is a function of the fixed run configuration and that
position's own value and response alone, so two runs agreeing there
produce the same row there, whatever happened at other positions. -/
theorem batch_stateless (cfg : RunCfg)
    (pairs1 pairs2 : List (ℚ × QueryResponse)) (rows1 rows2 : List CsvRow)
    (h1 : runBatch cfg pairs1 = .ok rows1) (h2 : runBatch cfg pairs2 = .ok rows2)
    (i : Nat) (hp : pairs1[i]? = pairs2[i]?) : rows1[i]? = rows2[i]? := by
  rw [runBatch_getElem? h1 i, runBatch_getElem? h2 i, hp]

theorem batch_stateless_witness :
    ([errRow ⟨"O", "ew", 5777, 444/100, 0, 1, 3, some 7772⟩ 65 "boom"] : List CsvRow)[0]?
      = ([errRow ⟨"O", "ew", 5777, 444/100, 0, 1, 3, some 7772⟩ 65 "boom",
          errRow ⟨"O", "ew", 5777, 444/100, 0, 1, 3, some 7772⟩ 80 "later failure"] :
            List CsvRow)[0]? :=
  batch_stateless ⟨"O", "ew", 5777, 444/100, 0, 1, 3, some 7772⟩
    [(65, .httpError "boom")]
    [(65, .httpError "boom"), (80, .httpError "later failure")]
    _ _ rfl rfl 0 rfl

theorem contextFields_keys (cfg : RunCfg) (v : ℚ) :
    ∀ p ∈ contextFields cfg v, p.1 = "element" ∨ p.1 = "wi" ∨ p.1 = "wavelength_A" ∨
      p.1 = "Teff" ∨ p.1 = "logg" ∨ p.1 = "FeH" ∨ p.1 = "vt" ∨ p.1 = "input_value" := by
  intro p hp
  simp only [contextFields, List.mem_cons, List.not_mem_nil, or_false] at hp
  rcases hp with rfl | rfl | rfl | rfl | rfl | rfl | rfl | rfl <;> simp

/-- C4: when every per-value query either parses or raises an
`Exception` (never `SystemExit`), the rows handed to `write_csv`
contain exactly one row per input value, in input order; a failing
value's row carries the exception message truncated to 300 characters
under `error`, and a succeeding value's row is the parsed fields plus
the run context, with no `error` field. -/
theorem batch_rows_spec (cfg : RunCfg) (pairs : List (ℚ × QueryResponse))
    (hno : ∀ p ∈ pairs, p.2 ≠ .body none) :
    ∃ rows, runBatch cfg pairs = .ok rows ∧ rows.length = pairs.length ∧
      ∀ i (hi : i < pairs.length), ∃ hri : i < rows.length,
        (rows.get ⟨i, hri⟩).lookup "input_value"
            = some (.num (pairs.get ⟨i, hi⟩).1) ∧
        ((∃ msg, queryResult cfg (pairs.get ⟨i, hi⟩).2 = .error (.exception msg) ∧
            rows.get ⟨i, hri⟩ = errRow cfg (pairs.get ⟨i, hi⟩).1 msg ∧
            (rows.get ⟨i, hri⟩).lookup "error" = some (.str (msg.take 300))) ∨
         (∃ fields, queryResult cfg (pairs.get ⟨i, hi⟩).2 = .ok fields ∧
            rows.get ⟨i, hri⟩ = fields ++ contextFields cfg (pairs.get ⟨i, hi⟩).1 ∧
            (rows.get ⟨i, hri⟩).lookup "error" = none)) := by
  obtain ⟨rows, hrun, hlen, hget⟩ := runBatch_ok_of_no_exit hno
  refine ⟨rows, hrun, hlen, ?_⟩
  intro i hi
  obtain ⟨hri, hpo⟩ := hget i hi
  refine ⟨hri, ?_, ?_⟩
  · unfold processOne at hpo
    split at hpo
    · rename_i fields heq
      injection hpo with hpo
      rw [← hpo]
      rw [lookup_append_of_no_key]
      · rfl
      · intro p hp
        rcases queryResult_ok_keys heq p hp with h1 | h1 | h1 | h1 | h1 | h1 <;>
          simp [h1]
    · injection hpo with hpo
      rw [← hpo]
      rfl
    · simp at hpo
  · unfold processOne at hpo
    split at hpo
    · rename_i fields heq
      injection hpo with hpo
      right
      refine ⟨fields, heq, hpo.symm, ?_⟩
      rw [← hpo]
      apply lookup_eq_none_of_no_key
      intro p hp
      rcases List.mem_append.mp hp with hmem | hmem
      · rcases queryResult_ok_keys heq p hmem with h1 | h1 | h1 | h1 | h1 | h1 <;>
          simp [h1]
      · rcases contextFields_keys cfg _ p hmem with h1 | h1 | h1 | h1 | h1 | h1 | h1 | h1 <;>
          simp [h1]
    · rename_i msg heq
      injection hpo with hpo
      left
      refine ⟨msg, heq, hpo.symm, ?_⟩
      rw [← hpo]
      rfl
    · simp at hpo

theorem batch_rows_spec_witness :
    (errRow ⟨"O", "ew", 5777, 444/100, 0, 1, 3, some 7772⟩ 65 "boom").lookup "error"
      = some (.str ("boom".take 300)) := by
  obtain ⟨rows, hrun, hlen, hget⟩ :=
    batch_rows_spec ⟨"O", "ew", 5777, 444/100, 0, 1, 3, some 7772⟩
      [(65, .httpError "boom")]
      (by
        intro p hp
        simp only [List.mem_singleton] at hp
        subst hp
        simp)
  have hrows : rows = [errRow ⟨"O", "ew", 5777, 444/100, 0, 1, 3, some 7772⟩ 65 "boom"] := by
    have heval : runBatch ⟨"O", "ew", 5777, 444/100, 0, 1, 3, some 7772⟩
        [(65, .httpError "boom")]
        = .ok [errRow ⟨"O", "ew", 5777, 444/100, 0, 1, 3, some 7772⟩ 65 "boom"] := rfl
    rw [heval] at hrun
    injection hrun with h
    exact h.symm
  obtain ⟨hri, hiv, hcase⟩ := hget 0 (by simp)
  rcases hcase with ⟨msg, hq, hrow, herr⟩ | ⟨fields, hq, hrow, herr⟩
  · have hq2 : (Except.error (PyErr.exception "boom") : Except PyErr (List (String × Cell)))
        = Except.error (PyErr.exception msg) := hq
    injection hq2 with hq3
    injection hq3 with hq4
    subst hq4
    rw [hrow] at herr
    exact herr
  · have hq2 : (Except.error (PyErr.exception "boom") : Except PyErr (List (String × Cell)))
        = Except.ok fields := hq
    simp at hq2

/-- C5: for every non-empty row list the emitted header lists every
column present in some row exactly once: first the preferred names in
their fixed order (restricted to those present), then all remaining
names in ascending order. -/
theorem write_csv_header_spec (rows : List CsvRow) (hdr : List String)
    (data : List CsvRow) (h : write_csv rows = some (hdr, data)) :
    (∀ c ∈ colsOf rows, hdr.count c = 1) ∧
    (∀ c ∈ hdr, c ∈ colsOf rows) ∧
    (∃ post, hdr = preferred.filter (fun c => (colsOf rows).contains c) ++ post ∧
      List.Sorted (fun a b : String => a ≤ b) post ∧
      ∀ c, c ∈ post ↔ (c ∈ colsOf rows ∧ c ∉ preferred)) := by
  unfold write_csv at h
  split at h
  · simp at h
  · injection h with h
    rw [Prod.mk.injEq] at h
    obtain ⟨h1, _⟩ := h
    subst h1
    unfold csvHeader
    have hcnodup : (colsOf rows).Nodup := by
      unfold colsOf
      exact List.nodup_dedup _
    have hperm := List.perm_insertionSort (fun a b : String => a ≤ b) (colsOf rows)
    have hSnodup : (List.insertionSort (fun a b : String => a ≤ b) (colsOf rows)).Nodup :=
      (List.Perm.nodup_iff hperm).mpr hcnodup
    have hSmem : ∀ c : String,
        c ∈ List.insertionSort (fun a b : String => a ≤ b) (colsOf rows) ↔
          c ∈ colsOf rows := fun c => List.Perm.mem_iff hperm
    have hpnodup : preferred.Nodup := by decide
    have hcontains : ∀ (l : List String) (c : String), l.contains c = true ↔ c ∈ l := by
      intro l c
      exact List.elem_iff
    have hmemA : ∀ c : String,
        c ∈ preferred.filter (fun c => (colsOf rows).contains c) ↔
          (c ∈ preferred ∧ c ∈ colsOf rows) := by
      intro c
      rw [List.mem_filter]
      constructor
      · rintro ⟨h1, h2⟩
        exact ⟨h1, (hcontains _ _).mp h2⟩
      · rintro ⟨h1, h2⟩
        exact ⟨h1, (hcontains _ _).mpr h2⟩
    have hmemB : ∀ c : String,
        c ∈ (List.insertionSort (fun a b : String => a ≤ b) (colsOf rows)).filter
            (fun c => !(preferred.contains c)) ↔
          (c ∈ colsOf rows ∧ c ∉ preferred) := by
      intro c
      rw [List.mem_filter]
      constructor
      · rintro ⟨h1, h2⟩
        refine ⟨(hSmem c).mp h1, ?_⟩
        intro hc
        rw [Bool.not_eq_eq_eq_not, Bool.not_true] at h2
        rw [← hcontains preferred c] at hc
        rw [h2] at hc
        exact Bool.false_ne_true hc
      · rintro ⟨h1, h2⟩
        refine ⟨(hSmem c).mpr h1, ?_⟩
        rw [Bool.not_eq_eq_eq_not, Bool.not_true]
        rcases hb : preferred.contains c with _ | _
        · rfl
        · exact absurd ((hcontains _ _).mp hb) h2
    refine ⟨?_, ?_, ?_⟩
    · intro c hc
      rw [List.count_append]
      by_cases hp : c ∈ preferred
      · rw [List.count_eq_one_of_mem (hpnodup.filter _) ((hmemA c).mpr ⟨hp, hc⟩)]
        rw [List.count_eq_zero_of_not_mem (fun hx => ((hmemB c).mp hx).2 hp)]
      · rw [List.count_eq_zero_of_not_mem (fun hx => hp ((hmemA c).mp hx).1)]
        rw [List.count_eq_one_of_mem (hSnodup.filter _) ((hmemB c).mpr ⟨hc, hp⟩)]
    · intro c hc
      rcases List.mem_append.mp hc with hx | hx
      · exact ((hmemA c).mp hx).2
      · exact ((hmemB c).mp hx).1
    · refine ⟨_, rfl, ?_, hmemB⟩
      exact List.Sorted.filter _ (List.sorted_insertionSort _ _)

theorem write_csv_header_spec_witness :
    (∀ c ∈ colsOf [[("zebra", Cell.num 1), ("mode", Cell.str "ew")],
        [("A_LTE", Cell.num 2)]],
      (csvHeader [[("zebra", Cell.num 1), ("mode", Cell.str "ew")],
        [("A_LTE", Cell.num 2)]]).count c = 1) ∧
    (∀ c ∈ csvHeader [[("zebra", Cell.num 1), ("mode", Cell.str "ew")],
        [("A_LTE", Cell.num 2)]],
      c ∈ colsOf [[("zebra", Cell.num 1), ("mode", Cell.str "ew")],
        [("A_LTE", Cell.num 2)]]) :=
  have h := write_csv_header_spec
    [[("zebra", Cell.num 1), ("mode", Cell.str "ew")], [("A_LTE", Cell.num 2)]]
    (csvHeader [[("zebra", Cell.num 1), ("mode", Cell.str "ew")], [("A_LTE", Cell.num 2)]])
    [[("zebra", Cell.num 1), ("mode", Cell.str "ew")], [("A_LTE", Cell.num 2)]]
    rfl
  ⟨h.1, h.2.1⟩

/-! ## keyLt order facts and the Python min fold -/

theorem keyLt_irrefl (k : Option ℚ) : keyLt k k = false := by
  cases k <;> simp [keyLt]

theorem keyLt_trans {a b c : Option ℚ} (hab : keyLt a b = true)
    (hbc : keyLt b c = true) : keyLt a c = true := by
  cases a with
  | none => simp [keyLt] at hab
  | some aq =>
    cases b with
    | none => simp [keyLt] at hbc
    | some bq =>
      cases c with
      | none => simp [keyLt]
      | some cq =>
        simp only [keyLt, decide_eq_true_eq] at hab hbc ⊢
        exact lt_trans hab hbc

theorem keyLt_le_trans {a b c : Option ℚ} (hab : keyLt a b = true)
    (hac : keyLt a c = false) : keyLt c b = true := by
  cases a with
  | none => simp [keyLt] at hab
  | some aq =>
    cases c with
    | none => simp [keyLt] at hac
    | some cq =>
      cases b with
      | none => simp [keyLt]
      | some bq =>
        simp only [keyLt, decide_eq_true_eq, decide_eq_false_iff_not] at hab hac ⊢
        exact lt_of_le_of_lt (le_of_not_lt hac) hab

/-- The fold inside `pyMinBy` returns a member whose key no other
member strictly undercuts (Python `min` keeps the first minimum). -/
theorem pyMin_foldl_spec (key : DLine → Option ℚ) :
    ∀ (xs : List DLine) (x : DLine),
      (xs.foldl (fun best y => if keyLt (key y) (key best) then y else best) x) ∈ x :: xs ∧
      ∀ y ∈ x :: xs,
        keyLt (key y)
          (key (xs.foldl (fun best y => if keyLt (key y) (key best) then y else best) x))
          = false := by
  intro xs
  induction xs with
  | nil =>
    intro x
    refine ⟨List.mem_singleton_self x, ?_⟩
    intro y hy
    rw [List.mem_singleton.mp hy]
    exact keyLt_irrefl _
  | cons z zs ih =>
    intro x
    simp only [List.foldl_cons]
    cases hz : keyLt (key z) (key x) with
    | true =>
      rw [if_pos (Eq.refl true)]
      obtain ⟨hmem, hmin⟩ := ih z
      constructor
      · rcases List.mem_cons.mp hmem with hh | hh
        · rw [hh]
          exact List.mem_cons_of_mem _ (List.mem_cons_self _ _)
        · exact List.mem_cons_of_mem _ (List.mem_cons_of_mem _ hh)
      · intro y hy
        rcases List.mem_cons.mp hy with rfl | hy2
        · cases hxb : keyLt (key y)
              (key (zs.foldl (fun best y => if keyLt (key y) (key best) then y else best) z)) with
          | false => rfl
          | true =>
            exact absurd (keyLt_trans hz hxb)
              (by simp [hmin z (List.mem_cons_self _ _)])
        · exact hmin y hy2
    | false =>
      rw [if_neg (by decide : ¬ false = true)]
      obtain ⟨hmem, hmin⟩ := ih x
      constructor
      · rcases List.mem_cons.mp hmem with hh | hh
        · rw [hh]
          exact List.mem_cons_self _ _
        · exact List.mem_cons_of_mem _ (List.mem_cons_of_mem _ hh)
      · intro y hy
        rcases List.mem_cons.mp hy with rfl | hy2
        · exact hmin y (List.mem_cons_self _ _)
        · rcases List.mem_cons.mp hy2 with rfl | hy3
          · cases hzb : keyLt (key y)
                (key (zs.foldl (fun best y => if keyLt (key y) (key best) then y else best) x)) with
            | false => rfl
            | true =>
              exact absurd (keyLt_le_trans hzb hz)
                (by simp [hmin x (List.mem_cons_self _ _)])
          · exact hmin y (List.mem_cons_of_mem _ hy3)

theorem distKey_some {W q : ℚ} {l : DLine} (h : l.wav = some q) :
    distKey W l = some (absq (q - W)) := by
  unfold distKey
  rw [h]
  rfl

theorem distKey_none {W : ℚ} {l : DLine} (h : l.wav = none) :
    distKey W l = none := by
  unfold distKey
  rw [h]
  rfl

/-- C2 counterexample: with request 100 Å and dropdown lines at
100 + 5e-7 Å and exactly 100 Å, the loop's 1e-6 tolerance matches the
FIRST line and returns it, although the second line's distance (0) is
strictly smaller — the returned line does not minimize the distance
over the non-NaN lines. -/
theorem choose_wi_not_minimizer :
    choose_wi_from_wavelength 100
      [⟨1, some (100 + 1/2000000), "a"⟩, ⟨2, some 100, "b"⟩]
      = some (1, some (100 + 1/2000000)) ∧
    (⟨2, some 100, "b"⟩ : DLine) ∈
      [(⟨1, some (100 + 1/2000000), "a"⟩ : DLine), ⟨2, some 100, "b"⟩] ∧
    absq (100 - 100) < absq ((100 + 1/2000000) - 100) := by
  refine ⟨?_, by simp, ?_⟩
  · norm_num [choose_wi_from_wavelength, List.find?, withinTol, absq]
  · norm_num [absq]

/-- A successful `find?` splits the list as a prefix on which the
predicate fails, followed by the found element: it is the FIRST match. -/
theorem find?_first {p : DLine → Bool} :
    ∀ {l : List DLine} {a : DLine}, l.find? p = some a →
      ∃ pre post, l = pre ++ a :: post ∧ ∀ x ∈ pre, p x = false := by
  intro l
  induction l with
  | nil =>
    intro a h
    simp at h
  | cons x xs ih =>
    intro a h
    cases hp : p x with
    | true =>
      rw [List.find?_cons_of_pos _ hp] at h
      injection h with h
      subst h
      exact ⟨[], xs, rfl, by simp⟩
    | false =>
      rw [List.find?_cons_of_neg _ (by simp [hp])] at h
      obtain ⟨pre, post, heq, hpre⟩ := ih h
      refine ⟨x :: pre, post, by rw [heq]; rfl, ?_⟩
      intro y hy
      rcases List.mem_cons.mp hy with rfl | hy2
      · exact hp
      · exact hpre y hy2

/-- C2 (amended): `choose_wi_from_wavelength` returns the pair of the
first line whose non-NaN wavelength lies within 1e-6 of the request,
when such a line exists (the list splits as a prefix with no line
within tolerance, followed by the returned line); only otherwise does
it return a line whose non-NaN wavelength minimizes the absolute
distance over all lines with non-NaN wavelength (provided any exists).
In particular, whenever some line lies within 1e-6 of the request, a
line within 1e-6 is returned. -/
theorem choose_wi_spec (W : ℚ) (lines : List DLine) :
    ((∃ l ∈ lines, withinTol W l.wav = true) →
      ∃ pre l post, lines = pre ++ l :: post ∧
        (∀ l2 ∈ pre, withinTol W l2.wav = false) ∧
        withinTol W l.wav = true ∧
        choose_wi_from_wavelength W lines = some (l.wi, l.wav)) ∧
    (((∀ l ∈ lines, withinTol W l.wav = false) ∧ ∃ l ∈ lines, l.wav ≠ none) →
      ∃ l ∈ lines, ∃ q, l.wav = some q ∧
        choose_wi_from_wavelength W lines = some (l.wi, some q) ∧
        ∀ l2 ∈ lines, ∀ q2, l2.wav = some q2 →
          absq (q - W) ≤ absq (q2 - W)) := by
  constructor
  · intro hex
    have hsome : (lines.find? (fun l => withinTol W l.wav)).isSome := by
      rw [List.find?_isSome]
      obtain ⟨l, hl, hw⟩ := hex
      exact ⟨l, hl, hw⟩
    obtain ⟨l, hfind⟩ := Option.isSome_iff_exists.mp hsome
    obtain ⟨pre, post, heq, hpre⟩ := find?_first hfind
    refine ⟨pre, l, post, heq, hpre, by simpa using List.find?_some hfind, ?_⟩
    unfold choose_wi_from_wavelength
    rw [hfind]
  · rintro ⟨hall, l1, hl1, hq1⟩
    have hfind : lines.find? (fun l => withinTol W l.wav) = none := by
      rw [List.find?_eq_none]
      intro l hl
      simp [hall l hl]
    unfold choose_wi_from_wavelength
    rw [hfind]
    cases lines with
    | nil => simp at hl1
    | cons x xs =>
      obtain ⟨hmem, hmin⟩ := pyMin_foldl_spec (distKey W) xs x
      cases hbw : (xs.foldl
          (fun best y => if keyLt (distKey W y) (distKey W best) then y else best) x).wav with
      | none =>
        exfalso
        obtain ⟨q1, hq1s⟩ := Option.ne_none_iff_exists'.mp hq1
        have hm := hmin l1 hl1
        rw [distKey_some hq1s, distKey_none hbw] at hm
        simp [keyLt] at hm
      | some qb =>
        refine ⟨_, hmem, qb, hbw, ?_, ?_⟩
        · simp only [pyMinBy, Option.map_some']
          rw [hbw]
        · intro l2 hl2 q2 hq2
          have h2 := hmin l2 hl2
          rw [distKey_some hq2, distKey_some hbw] at h2
          simp only [keyLt, decide_eq_false_iff_not] at h2
          exact le_of_not_lt h2

theorem choose_wi_spec_witness :
    (∃ pre l post,
      ([(⟨1, some 7772, "a"⟩ : DLine), ⟨2, some 7700, "b"⟩] : List DLine)
        = pre ++ l :: post ∧
      (∀ l2 ∈ pre, withinTol 7772 l2.wav = false) ∧
      withinTol 7772 l.wav = true ∧
        choose_wi_from_wavelength 7772
          [(⟨1, some 7772, "a"⟩ : DLine), ⟨2, some 7700, "b"⟩] = some (l.wi, l.wav)) ∧
    (∃ l ∈ [(⟨1, some 7772, "a"⟩ : DLine), ⟨2, some 7700, "b"⟩], ∃ q, l.wav = some q ∧
      choose_wi_from_wavelength 7750
        [(⟨1, some 7772, "a"⟩ : DLine), ⟨2, some 7700, "b"⟩] = some (l.wi, some q) ∧
      ∀ l2 ∈ [(⟨1, some 7772, "a"⟩ : DLine), ⟨2, some 7700, "b"⟩], ∀ q2, l2.wav = some q2 →
        absq (q - 7750) ≤ absq (q2 - 7750)) :=
  ⟨(choose_wi_spec 7772 [⟨1, some 7772, "a"⟩, ⟨2, some 7700, "b"⟩]).1
    ⟨⟨1, some 7772, "a"⟩, by simp, by norm_num [withinTol, absq]⟩,
   (choose_wi_spec 7750 [⟨1, some 7772, "a"⟩, ⟨2, some 7700, "b"⟩]).2
    ⟨by
      intro l hl
      simp only [List.mem_cons, List.not_mem_nil, or_false] at hl
      rcases hl with rfl | rfl <;> norm_num [withinTol, absq],
     ⟨1, some 7772, "a"⟩, by simp, by simp⟩⟩

/-! ## FLOAT_RE search succeeds exactly on lines containing a digit -/

theorem matchFloatAt_isSome_eq (cs : List Char) :
    (matchFloatAt cs).isSome = !((matchSign cs).2.takeWhile Char.isDigit).isEmpty := by
  cases hx : ((matchSign cs).2.takeWhile Char.isDigit).isEmpty with
  | true => simp [matchFloatAt, hx]
  | false => simp [matchFloatAt, hx]

theorem takeWhile_nonempty_imp_any (p : Char → Bool) (l : List Char) :
    (!(l.takeWhile p).isEmpty || l.any p) = l.any p := by
  cases l with
  | nil => rfl
  | cons d l2 =>
    rw [List.takeWhile_cons, List.any_cons]
    cases hd : p d with
    | true => simp
    | false => simp

/-- `FLOAT_RE.search(ln)` succeeds iff the line contains a decimal
digit. -/
theorem floatSearch_eq_any (cs : List Char) :
    floatSearch cs = cs.any Char.isDigit := by
  induction cs with
  | nil => rfl
  | cons c rest ih =>
    rw [show floatSearch (c :: rest)
        = ((matchFloatAt (c :: rest)).isSome || floatSearch rest) from rfl]
    rw [ih, matchFloatAt_isSome_eq]
    by_cases hsgn : c = '-' ∨ c = '+'
    · have hcd : c.isDigit = false := by
        rcases hsgn with rfl | rfl <;> rfl
      rw [show (matchSign (c :: rest)).2 = rest by simp [matchSign, hsgn]]
      rw [List.any_cons, hcd, Bool.false_or]
      exact takeWhile_nonempty_imp_any Char.isDigit rest
    · have hns : (matchSign (c :: rest)).2 = c :: rest := by
        simp [matchSign, hsgn]
      rw [hns, List.any_cons, List.takeWhile_cons]
      cases hc : c.isDigit with
      | true => simp
      | false => simp

/-- Spec-side reading of "the last line of the block that contains a
number": the last non-blank line containing a decimal digit. -/
def specLastNumericLine (lines : List (List Char)) : Option (List Char) :=
  lines.reverse.find? (fun ln => ln.any Char.isDigit)

/-- C1: for every document whose `<pre>` block is present and yields a
text with a last digit-containing line `vl`, `parse_pre_block` takes
its numbers from `vl` and names the fields by arity: the first five
numbers as `EW_mA, A_LTE, A_NLTE, Delta, OFe_NLTE` when the lowercased
first two lines contain "ew" and `vl` holds at least 5 numbers, or when
it holds exactly 5; `A_LTE, A_NLTE, Delta, OFe_NLTE` for exactly 4;
`A_LTE, A_NLTE, Delta` for exactly 3; and an error in every other
case. -/
theorem parse_pre_block_arity (text : String) (vl : List Char)
    (hvl : specLastNumericLine (preLines text.data) = some vl) :
    parse_pre_block (some text) =
      (if (listContainsSub ['e', 'w']
            (List.map Char.toLower (joinNL (List.take 2 (preLines text.data)))) = true ∧
          5 ≤ (List.map parseFloatMatch (floatFindall vl)).length) ∨
         (List.map parseFloatMatch (floatFindall vl)).length = 5 then
        .ok [("EW_mA", (List.map parseFloatMatch (floatFindall vl)).getD 0 0),
             ("A_LTE", (List.map parseFloatMatch (floatFindall vl)).getD 1 0),
             ("A_NLTE", (List.map parseFloatMatch (floatFindall vl)).getD 2 0),
             ("Delta", (List.map parseFloatMatch (floatFindall vl)).getD 3 0),
             ("OFe_NLTE", (List.map parseFloatMatch (floatFindall vl)).getD 4 0)]
      else if (List.map parseFloatMatch (floatFindall vl)).length = 4 then
        .ok [("A_LTE", (List.map parseFloatMatch (floatFindall vl)).getD 0 0),
             ("A_NLTE", (List.map parseFloatMatch (floatFindall vl)).getD 1 0),
             ("Delta", (List.map parseFloatMatch (floatFindall vl)).getD 2 0),
             ("OFe_NLTE", (List.map parseFloatMatch (floatFindall vl)).getD 3 0)]
      else if (List.map parseFloatMatch (floatFindall vl)).length = 3 then
        .ok [("A_LTE", (List.map parseFloatMatch (floatFindall vl)).getD 0 0),
             ("A_NLTE", (List.map parseFloatMatch (floatFindall vl)).getD 1 0),
             ("Delta", (List.map parseFloatMatch (floatFindall vl)).getD 2 0)]
      else
        .error (.exception ("Unrecognized numeric format in result line: "
          ++ String.mk vl))) := by
  have hne : (preLines text.data).isEmpty = false := by
    cases hl : preLines text.data with
    | nil =>
      rw [hl] at hvl
      simp [specLastNumericLine] at hvl
    | cons a as => simp [hl]
  have hfind : (preLines text.data).reverse.find? floatSearch = some vl := by
    rw [show floatSearch = (fun ln => ln.any Char.isDigit) from funext floatSearch_eq_any]
    exact hvl
  simp only [parse_pre_block]
  rw [hne, if_neg (by decide : ¬ false = true), hfind]
  dsimp only
  by_cases hew : listContainsSub ['e', 'w']
      (List.map Char.toLower (joinNL (List.take 2 (preLines text.data)))) = true ∧
      5 ≤ (List.map parseFloatMatch (floatFindall vl)).length
  · rw [if_pos hew, if_pos (Or.inl hew)]
  · by_cases h5 : (List.map parseFloatMatch (floatFindall vl)).length = 5
    · rw [if_neg hew, if_pos h5, if_pos (Or.inr h5)]
    · rw [if_neg hew, if_neg h5, if_neg (not_or.mpr ⟨hew, h5⟩)]

theorem parse_pre_block_arity_witness :
    parse_pre_block (some "EW  A(O) LTE  A(O) NLTE  Delta  [O/Fe] NLTE\n65  8.778  8.582  -0.196  -0.118") =
      (if (listContainsSub ['e', 'w']
            (List.map Char.toLower (joinNL (List.take 2
              (preLines "EW  A(O) LTE  A(O) NLTE  Delta  [O/Fe] NLTE\n65  8.778  8.582  -0.196  -0.118".data)))) = true ∧
          5 ≤ (List.map parseFloatMatch
            (floatFindall "65  8.778  8.582  -0.196  -0.118".data)).length) ∨
         (List.map parseFloatMatch
            (floatFindall "65  8.778  8.582  -0.196  -0.118".data)).length = 5 then
        .ok [("EW_mA", (List.map parseFloatMatch
                (floatFindall "65  8.778  8.582  -0.196  -0.118".data)).getD 0 0),
             ("A_LTE", (List.map parseFloatMatch
                (floatFindall "65  8.778  8.582  -0.196  -0.118".data)).getD 1 0),
             ("A_NLTE", (List.map parseFloatMatch
                (floatFindall "65  8.778  8.582  -0.196  -0.118".data)).getD 2 0),
             ("Delta", (List.map parseFloatMatch
                (floatFindall "65  8.778  8.582  -0.196  -0.118".data)).getD 3 0),
             ("OFe_NLTE", (List.map parseFloatMatch
                (floatFindall "65  8.778  8.582  -0.196  -0.118".data)).getD 4 0)]
      else if (List.map parseFloatMatch
          (floatFindall "65  8.778  8.582  -0.196  -0.118".data)).length = 4 then
        .ok [("A_LTE", (List.map parseFloatMatch
                (floatFindall "65  8.778  8.582  -0.196  -0.118".data)).getD 0 0),
             ("A_NLTE", (List.map parseFloatMatch
                (floatFindall "65  8.778  8.582  -0.196  -0.118".data)).getD 1 0),
             ("Delta", (List.map parseFloatMatch
                (floatFindall "65  8.778  8.582  -0.196  -0.118".data)).getD 2 0),
             ("OFe_NLTE", (List.map parseFloatMatch
                (floatFindall "65  8.778  8.582  -0.196  -0.118".data)).getD 3 0)]
      else if (List.map parseFloatMatch
          (floatFindall "65  8.778  8.582  -0.196  -0.118".data)).length = 3 then
        .ok [("A_LTE", (List.map parseFloatMatch
                (floatFindall "65  8.778  8.582  -0.196  -0.118".data)).getD 0 0),
             ("A_NLTE", (List.map parseFloatMatch
                (floatFindall "65  8.778  8.582  -0.196  -0.118".data)).getD 1 0),
             ("Delta", (List.map parseFloatMatch
                (floatFindall "65  8.778  8.582  -0.196  -0.118".data)).getD 2 0)]
      else
        .error (.exception ("Unrecognized numeric format in result line: "
          ++ String.mk "65  8.778  8.582  -0.196  -0.118".data))) :=
  parse_pre_block_arity
    "EW  A(O) LTE  A(O) NLTE  Delta  [O/Fe] NLTE\n65  8.778  8.582  -0.196  -0.118"
    "65  8.778  8.582  -0.196  -0.118".data
    (by decide)
